import Mathlib

/-!
Verification development for the hls-accelerator playlist-rewrite and
task/cache coordination subsystem. The Go sources are embedded shallowly:
pure rewriting logic becomes Lean functions over lists, the SQLite-backed
task store becomes an in-memory record of rows, the filesystem cache and
the external aria2 engine become explicit oracles passed to the functions
that consult them. Machine strings are Lean strings, except for the
percent-encoding layer, which is modelled byte-precisely on `List Nat`
because Go url.QueryEscape operates on raw bytes.
-/

namespace HLS

/-! ## Playlist rewriter (internal/m3u8/rewriter.go) -/

/-- Embeds the encryption-key reference carried by a media segment
(the grafov m3u8 `Key` field, of which only `URI` is consulted). -/
structure SegKey where
  uri : String
deriving DecidableEq, Repr

/-- Embeds a media segment of a parsed variant playlist: the fields of the
third-party `m3u8.MediaSegment` that `RewriteVariant` reads or writes. -/
structure MediaSegment where
  uri : String
  key : Option SegKey
deriving DecidableEq, Repr

/-- Embeds `m3u8.DownloadItem` from rewriter.go: one fetch item with its
resolved URL, cache filename and kind tag ("ts" or "key"). -/
structure DownloadItem where
  url : String
  filename : String
  type : String
deriving DecidableEq, Repr

/-- External collaborators of the rewriter, passed as oracles:
`resolve` embeds `resolveURL originBaseURL` (net/url RFC3986 resolution),
`pathExt` embeds `url.Parse` followed by `filepath.Ext` on the path,
returning `none` when parsing fails or the extension is empty,
`md5hex` embeds `hex.EncodeToString (md5.Sum url)`,
`escape` embeds `url.QueryEscape` at the string level. -/
structure RewriteCtx where
  resolve : String → String
  pathExt : String → Option String
  md5hex : String → String
  escape : String → String

/-- Go `fmt.Sprintf "%05d" n`: decimal digits of `n` left-padded with
zeros to width five. -/
def pad5 (n : Nat) : String :=
  let s := toString n
  String.mk (List.replicate (5 - s.length) '0') ++ s

/-- Filename choice of rewriter.go lines 91-99: five-digit one-based
index plus the resolved URL path extension, defaulting to ".ts". -/
def segFilename (ctx : RewriteCtx) (i : Nat) (fullSegURL : String) : String :=
  pad5 (i + 1) ++ (ctx.pathExt fullSegURL).getD ".ts"

/-- Result of the rewrite loop: rewritten segment list (standing for the
serialized `p.String()` output), fetch items in append order, and the
running segment count. -/
structure RewriteOut where
  segs : List (Option MediaSegment)
  items : List DownloadItem
  total : Nat
deriving DecidableEq, Repr

/-- Embeds the `for i, seg := range p.Segments` loop of `RewriteVariant`
(rewriter.go lines 78-133): `i` is the range index (nil entries included),
`seen` is the `seenKeys` set. Per segment: count and rewrite the segment
URI when non-empty, then rewrite the key URI when present and non-empty,
appending the key item only on first sight of its filename. -/
def rewriteLoop (ctx : RewriteCtx) (pb tid : String) :
    Nat → List String → List (Option MediaSegment) → RewriteOut
  | _, _, [] => ⟨[], [], 0⟩
  | i, seen, none :: rest =>
      let r := rewriteLoop ctx pb tid (i + 1) seen rest
      ⟨none :: r.segs, r.items, r.total⟩
  | i, seen, some seg :: rest =>
      let fullSegURL := ctx.resolve seg.uri
      let sfilename := segFilename ctx i fullSegURL
      let newSegURI := pb ++ "/seg/" ++ tid ++ "/" ++ sfilename ++ "/" ++ ctx.escape fullSegURL
      let seg1 : MediaSegment := if seg.uri = "" then seg else { seg with uri := newSegURI }
      let segItems : List DownloadItem :=
        if seg.uri = "" then [] else [⟨fullSegURL, sfilename, "ts"⟩]
      let cnt : Nat := if seg.uri = "" then 0 else 1
      match seg.key with
      | none =>
          let r := rewriteLoop ctx pb tid (i + 1) seen rest
          ⟨some seg1 :: r.segs, segItems ++ r.items, cnt + r.total⟩
      | some k =>
          if k.uri = "" then
            let r := rewriteLoop ctx pb tid (i + 1) seen rest
            ⟨some seg1 :: r.segs, segItems ++ r.items, cnt + r.total⟩
          else
            let fullKeyURL := ctx.resolve k.uri
            let kfilename := ctx.md5hex fullKeyURL ++ ".key"
            let newKeyURI := pb ++ "/key/" ++ tid ++ "/" ++ kfilename ++ "/" ++ ctx.escape fullKeyURL
            let seg2 : MediaSegment := { seg1 with key := some ⟨newKeyURI⟩ }
            if kfilename ∈ seen then
              let r := rewriteLoop ctx pb tid (i + 1) seen rest
              ⟨some seg2 :: r.segs, segItems ++ r.items, cnt + r.total⟩
            else
              let r := rewriteLoop ctx pb tid (i + 1) (kfilename :: seen) rest
              ⟨some seg2 :: r.segs, segItems ++ [⟨fullKeyURL, kfilename, "key"⟩] ++ r.items, cnt + r.total⟩

/-- Embeds `RewriteVariant` (rewriter.go line 72): runs the loop from
range index 0 with an empty `seenKeys` set. -/
def RewriteVariant (ctx : RewriteCtx) (pb tid : String)
    (segments : List (Option MediaSegment)) : RewriteOut :=
  rewriteLoop ctx pb tid 0 [] segments

/-- True exactly for a non-nil segment entry with a non-empty URI: the
entries that rewriter.go counts in `totalSegments`. -/
def hasURI : Option MediaSegment → Bool
  | some seg => !(seg.uri = "")
  | none => false

/-- The key filename rewriter.go computes for a segment, when the segment
carries a key with a non-empty URI. -/
def keyFilenameOf (ctx : RewriteCtx) (seg : MediaSegment) : Option String :=
  match seg.key with
  | some k => if k.uri = "" then none else some (ctx.md5hex (ctx.resolve k.uri) ++ ".key")
  | none => none

/-- All key filenames of a segment list, in playlist order, duplicates
included. -/
def keyFilenames (ctx : RewriteCtx) (segs : List (Option MediaSegment)) : List String :=
  segs.filterMap (fun os => os.bind (keyFilenameOf ctx))

/-- Keeps the first occurrence of each element not already in `seen`:
the observable effect of the `seenKeys` map on the appended key items. -/
def firstOccur : List String → List String → List String
  | _, [] => []
  | seen, f :: fs =>
      if f ∈ seen then firstOccur seen fs else f :: firstOccur (f :: seen) fs

/-- The segment ("ts") items `RewriteVariant` produces, characterized
positionally: entry at range index `i` with a non-empty URI yields the
item with filename `pad5 (i+1) ++ ext`. -/
def tsSpec (ctx : RewriteCtx) (segs : List (Option MediaSegment)) : List DownloadItem :=
  (segs.enumFrom 0).filterMap (fun p =>
    match p.2 with
    | some seg =>
        if seg.uri = "" then none
        else some ⟨ctx.resolve seg.uri, segFilename ctx p.1 (ctx.resolve seg.uri), "ts"⟩
    | none => none)

/-- The one-based sequence numbers of the produced segment items, in
production order. -/
def tsNums (segs : List (Option MediaSegment)) : List Nat :=
  (segs.enumFrom 0).filterMap (fun p => if hasURI p.2 then some (p.1 + 1) else none)

/-! ## Byte-level percent-encoding (net/url QueryEscape and QueryUnescape,
as used at rewriter.go line 100 and server.go line 336) -/

/-- The bytes Go shouldEscape leaves untouched in query components:
ASCII letters, digits, and the marks - _ . ~ . -/
def isUnreservedByte (b : Nat) : Bool :=
  (97 ≤ b && b ≤ 122) || (65 ≤ b && b ≤ 90) || (48 ≤ b && b ≤ 57) ||
    b = 45 || b = 95 || b = 46 || b = 126

/-- Upper-case hex digit byte for a nibble, as in the Go escape table. -/
def hexDigit (n : Nat) : Nat := if n < 10 then 48 + n else 55 + n

/-- Value of a hex digit byte, accepting both cases, as Go unhex does. -/
def hexVal (b : Nat) : Option Nat :=
  if 48 ≤ b && b ≤ 57 then some (b - 48)
  else if 97 ≤ b && b ≤ 102 then some (b - 87)
  else if 65 ≤ b && b ≤ 70 then some (b - 55)
  else none

/-- Embeds `url.QueryEscape` on raw bytes: space becomes plus, unreserved
bytes pass through, everything else becomes a percent triple. -/
def queryEscape : List Nat → List Nat
  | [] => []
  | b :: rest =>
      if isUnreservedByte b then b :: queryEscape rest
      else if b = 32 then 43 :: queryEscape rest
      else 37 :: hexDigit (b / 16) :: hexDigit (b % 16) :: queryEscape rest

/-- Embeds `url.QueryUnescape` on raw bytes: a percent must be followed by
two hex digits, plus decodes to space, other bytes pass through; a
malformed percent sequence is an error (`none`). -/
def queryUnescape : List Nat → Option (List Nat)
  | [] => some []
  | c :: rest =>
      if c = 37 then
        match rest with
        | a :: b :: rest2 =>
            match hexVal a, hexVal b with
            | some x, some y => (queryUnescape rest2).map (fun t => (16 * x + y) :: t)
            | _, _ => none
        | _ => none
      else if c = 43 then (queryUnescape rest).map (fun t => 32 :: t)
      else (queryUnescape rest).map (fun t => c :: t)

/-- Splits at the first slash byte, as one step of `strings.SplitN` with
separator "/": `none` when no slash occurs. -/
def breakSlash : List Nat → Option (List Nat × List Nat)
  | [] => none
  | c :: rest =>
      if c = 47 then some ([], rest)
      else (breakSlash rest).map (fun p => (c :: p.1, p.2))

/-- Embeds `strings.SplitN(path, "/", 3)` plus the length check of
server.go lines 327-331: yields task ID, filename, and the remainder
after the second slash, or `none` when fewer than three parts exist. -/
def splitTask (s : List Nat) : Option (List Nat × List Nat × List Nat) :=
  match breakSlash s with
  | none => none
  | some (t, r1) =>
      match breakSlash r1 with
      | none => none
      | some (f, r2) => some (t, f, r2)

/-- The bytes of "/seg/". -/
def segMark : List Nat := [47, 115, 101, 103, 47]

/-- Byte-level view of the rewritten segment URI of rewriter.go line 103:
proxy base, "/seg/", task ID, slash, filename, slash, escaped resolved
URL. -/
def segRewrittenURI (pb tid fn res : List Nat) : List Nat :=
  pb ++ segMark ++ tid ++ [47] ++ fn ++ [47] ++ queryEscape res

/-- The bytes of ".aria2", the in-progress sidecar suffix. -/
def ariaBytes : List Nat := [46, 97, 114, 105, 97, 50]

/-- ASCII bytes of a Lean string, for concrete instances. -/
def asciiBytes (s : String) : List Nat := s.data.map Char.toNat

/-- Modelled from the spec: the Cache Store primitive `cache.FileExists`
(whose source file is not in the repository snapshot; only callers are).
A byte-level filesystem oracle: task ID and filename decide existence. -/
def FSB : Type := List Nat → List Nat → Bool

/-- Outcome of the segment or key handler: reject the request, serve the
cached file at the resolved cache path, or pass through to the origin
URL. The type has no constructor that dispatches a background fetch,
matching the handler, which never re-triggers one. -/
inductive ProxyFileResult
  | badRequest
  | serveLocal (taskID filename : List Nat)
  | passThrough (originURL : List Nat)
deriving DecidableEq, Repr

/-- Embeds `handleProxyFile` (server.go lines 325-372): split the path,
unescape the embedded URL, serve from cache exactly when the file exists
and its sidecar does not, otherwise pass through live. -/
def handleProxyFile (fs : FSB) (path : List Nat) : ProxyFileResult :=
  match splitTask path with
  | none => .badRequest
  | some (taskID, filename, encodedURL) =>
      match queryUnescape encodedURL with
      | none => .badRequest
      | some originURL =>
          if fs taskID filename then
            if fs taskID (filename ++ ariaBytes) then .passThrough originURL
            else .serveLocal taskID filename
          else .passThrough originURL

/-! ## Task store and orchestrator (src/unnamed parts 001 and 002,
server.go lines 275-404) -/

/-- Embeds `task.TaskMetadata` (internal/task/metadata.go). Timestamps
are opaque naturals. -/
structure TaskMetadata where
  id : String
  originalURL : String
  totalSegments : Nat
  createdTime : Nat
  status : String
  proxiedContent : String
deriving DecidableEq, Repr

/-- One row of the task_item table: task ID, filename, aria2 GID, source
URL. -/
structure TaskItemRow where
  taskId : String
  filename : String
  aria2Gid : String
  url : String
deriving DecidableEq, Repr

/-- The two tables of the SQLite store, as row lists in insertion order. -/
structure DBState where
  tasks : List TaskMetadata
  items : List TaskItemRow
deriving DecidableEq, Repr

/-- Row lookup by primary key, as SELECT ... WHERE id does. -/
def findTask (db : DBState) (id : String) : Option TaskMetadata :=
  db.tasks.find? (fun t => t.id = id)

/-- Embeds `CreateTask`: a plain INSERT that fails on the primary-key
uniqueness of id when the row already exists, and appends otherwise. -/
def CreateTask (db : DBState) (meta : TaskMetadata) : Except String DBState :=
  if (findTask db meta.id).isSome then .error "UNIQUE constraint failed: tasks.id"
  else .ok { db with tasks := db.tasks ++ [meta] }

/-- Embeds `CreateTaskItem`: INSERT OR IGNORE on the unique
(task_id, filename) pair; a duplicate is silently absorbed. -/
def CreateTaskItem (db : DBState) (taskID filename gid url : String) : DBState :=
  if db.items.any (fun it => it.taskId = taskID && it.filename = filename) then db
  else { db with items := db.items ++ [⟨taskID, filename, gid, url⟩] }

/-- Embeds `CheckTaskExists`: existence flag and status, empty status
when absent. -/
def CheckTaskExists (db : DBState) (id : String) : Bool × String :=
  match findTask db id with
  | none => (false, "")
  | some t => (true, t.status)

/-- Embeds `GetTaskItemGIDs`: the aria2 GIDs of all items of a task. -/
def GetTaskItemGIDs (db : DBState) (id : String) : List String :=
  (db.items.filter (fun it => it.taskId = id)).map (fun it => it.aria2Gid)

/-- Modelled from the spec: the string-level Cache Store existence oracle
(`cache.FileExists`, source not in the snapshot): task ID and filename
decide whether the file is present. -/
def FS : Type := String → String → Bool

/-- Modelled from the spec: `cache.GetTaskDir`, the per-task cache
directory, keyed by the task ID. -/
def GetTaskDir (id : String) : String := id

/-- The external aria2 engine as an oracle: `AddUri url dir filename`
returns the GID on success, `none` on any submission failure. -/
def Engine : Type := String → String → String → Option String

/-- One recorded submission to the engine: url, filename, returned GID. -/
structure Submission where
  url : String
  filename : String
  gid : String
deriving DecidableEq, Repr

/-- Embeds `triggerDownloads` (server.go lines 382-404): per item, skip
when the file already exists, otherwise submit to the engine; on engine
failure skip silently; on success record the GID with insert-or-ignore.
Also returns the successful submissions in order. -/
def triggerDownloads (eng : Engine) (fs : FS) (taskID : String) :
    List DownloadItem → DBState → DBState × List Submission
  | [], db => (db, [])
  | item :: rest, db =>
      if fs taskID item.filename then triggerDownloads eng fs taskID rest db
      else
        match eng item.url (GetTaskDir taskID) item.filename with
        | none => triggerDownloads eng fs taskID rest db
        | some gid =>
            let db2 := CreateTaskItem db taskID item.filename gid item.url
            let r := triggerDownloads eng fs taskID rest db2
            (r.1, ⟨item.url, item.filename, gid⟩ :: r.2)

/-- Embeds the goroutine body of `handleVariantPlaylist` (server.go lines
299-315): create the task; on failure log and return, doing nothing else;
on success trigger the downloads. -/
def variantBackground (eng : Engine) (fs : FS) (meta : TaskMetadata)
    (items : List DownloadItem) (db : DBState) : DBState × List Submission :=
  match CreateTask db meta with
  | .error _ => (db, [])
  | .ok db2 => triggerDownloads eng fs meta.id items db2

/-- Observable outcome of the variant-playlist handler: cache directories
after EnsureTaskDir, database after the background work, engine
submissions, and the body written to the response. -/
structure VariantOutcome where
  dirs : List String
  db : DBState
  submitted : List Submission
  response : String
deriving Repr

/-- Embeds `handleVariantPlaylist` (server.go lines 275-321) from the
point where the rewrite has produced `updated`, `items` and `total`:
ensure the cache directory, check task existence, start the background
creation path only when the task is absent or in neither downloading nor
completed state, and always answer with the rewritten body. The detached
goroutine is sequenced after the decision, which is faithful for the
single-request executions the claims quantify over. -/
def handleVariantPlaylist (eng : Engine) (fs : FS) (dirs : List String)
    (db : DBState) (taskID originURL updated : String)
    (items : List DownloadItem) (total : Nat) (now : Nat) : VariantOutcome :=
  let dirs2 := if taskID ∈ dirs then dirs else taskID :: dirs
  let ex := CheckTaskExists db taskID
  let shouldStart := !ex.1 || (!(ex.2 = "downloading") && !(ex.2 = "completed"))
  if shouldStart then
    let meta : TaskMetadata := ⟨taskID, originURL, total, now, "downloading", updated⟩
    let r := variantBackground eng fs meta items db
    ⟨dirs2, r.1, r.2, updated⟩
  else ⟨dirs2, db, [], updated⟩

/-- Whole-system state for the delete path: database, string-level cache
filesystem, existing cache directories, and the logs of aria2 removals. -/
structure SysState where
  db : DBState
  fs : FS
  dirs : List String
  cancelled : List String
  removedResults : List String

/-- Embeds `DeleteTask` (src/unnamed/part_001 lines 95-142): refuse when
absent or downloading; otherwise force-remove and forget every GID,
remove the cache directory (the oracle `removeFails` stands for the
os.RemoveAll outcome), then delete item rows and the task row. Returns
the final state and the error message, if any. -/
def DeleteTask (removeFails : Bool) (st : SysState) (id : String) :
    SysState × Option String :=
  match findTask st.db id with
  | none => (st, some "task not found")
  | some meta =>
      if meta.status = "downloading" then
        (st, some "cannot delete running task, please stop it first")
      else
        let gids := GetTaskItemGIDs st.db id
        let st1 := { st with cancelled := st.cancelled ++ gids,
                             removedResults := st.removedResults ++ gids }
        if removeFails then (st1, some "failed to remove files")
        else
          let st2 := { st1 with
            fs := fun t f => if t = id then false else st1.fs t f,
            dirs := st1.dirs.filter (fun d => !(d = GetTaskDir id)) }
          let st3 := { st2 with db := { st2.db with
            items := st2.db.items.filter (fun it => !(it.taskId = id)) } }
          let st4 := { st3 with db := { st3.db with
            tasks := st3.db.tasks.filter (fun t => !(t.id = id)) } }
          (st4, none)

/-- Embeds `countDownloadedSegments` (src/unnamed/part_001 lines 145-164):
items of the task whose file exists without the .aria2 sidecar. -/
def countDownloadedSegments (fs : FS) (db : DBState) (taskID : String) : Nat :=
  (db.items.filter (fun it => it.taskId = taskID)).countP
    (fun it => fs taskID it.filename && !(fs taskID (it.filename ++ ".aria2")))

/-- One row of the progress listing, as GetTasks reports it. -/
structure TaskReport where
  id : String
  originalURL : String
  totalSegments : Nat
  downloadedSegments : Nat
  createdTime : Nat
  status : String
deriving DecidableEq, Repr

/-- Embeds the per-task body of `GetTasks` (src/unnamed/part_001 lines
41-68): completed tasks trust the stored total; otherwise recount from
the filesystem and flip to completed only when the stored total is
positive and reached. -/
def reportOf (fs : FS) (db : DBState) (meta : TaskMetadata) : TaskReport :=
  if meta.status = "completed" then
    ⟨meta.id, meta.originalURL, meta.totalSegments, meta.totalSegments,
      meta.createdTime, "completed"⟩
  else
    let d := countDownloadedSegments fs db meta.id
    if 0 < meta.totalSegments ∧ meta.totalSegments ≤ d then
      ⟨meta.id, meta.originalURL, meta.totalSegments, meta.totalSegments,
        meta.createdTime, "completed"⟩
    else
      ⟨meta.id, meta.originalURL, meta.totalSegments, d, meta.createdTime, meta.status⟩

/-- The asynchronous status write `GetTasks` issues for a task, if any:
the flip to completed, requiring a positive stored total. -/
def statusUpdateOf (fs : FS) (db : DBState) (meta : TaskMetadata) :
    Option (String × String) :=
  if meta.status = "completed" then none
  else if 0 < meta.totalSegments ∧
      meta.totalSegments ≤ countDownloadedSegments fs db meta.id then
    some (meta.id, "completed")
  else none

/-- Embeds `GetTasks`: the reports of all stored tasks, and the
asynchronous status updates it fires (the listing order by creation time
is abstracted; the claims are per task). -/
def GetTasks (fs : FS) (db : DBState) :
    List TaskReport × List (String × String) :=
  (db.tasks.map (reportOf fs db), db.tasks.filterMap (statusUpdateOf fs db))

/-! ## Shared lemmas -/

/-- The running total of the rewrite loop counts exactly the non-nil
entries with a non-empty URI, independently of index and seen-set. -/
theorem rewriteLoop_total (ctx : RewriteCtx) (pb tid : String) :
    ∀ (segs : List (Option MediaSegment)) (i : Nat) (seen : List String),
      (rewriteLoop ctx pb tid i seen segs).total = segs.countP hasURI
  | [], _, _ => by simp [rewriteLoop]
  | none :: rest, i, seen => by
      simp [rewriteLoop, List.countP_cons, hasURI,
        rewriteLoop_total ctx pb tid rest (i + 1) seen]
  | some seg :: rest, i, seen => by
      rcases hk : seg.key with _ | k
      · by_cases hu : seg.uri = "" <;>
          simp [rewriteLoop, hk, hu, List.countP_cons, hasURI,
            rewriteLoop_total ctx pb tid rest (i + 1) seen, Nat.add_comm]
      · by_cases hku : k.uri = ""
        · by_cases hu : seg.uri = "" <;>
            simp [rewriteLoop, hk, hku, hu, List.countP_cons, hasURI,
              rewriteLoop_total ctx pb tid rest (i + 1) seen, Nat.add_comm]
        · by_cases hmem : ctx.md5hex (ctx.resolve k.uri) ++ ".key" ∈ seen
          · by_cases hu : seg.uri = "" <;>
              simp [rewriteLoop, hk, hku, hu, hmem, List.countP_cons, hasURI,
                rewriteLoop_total ctx pb tid rest (i + 1) seen, Nat.add_comm]
          · by_cases hu : seg.uri = "" <;>
              simp [rewriteLoop, hk, hku, hu, hmem, List.countP_cons, hasURI,
                rewriteLoop_total ctx pb tid rest (i + 1)
                  ((ctx.md5hex (ctx.resolve k.uri) ++ ".key") :: seen), Nat.add_comm]

/-- The segment items the rewrite loop emits, filtered from its item
list, are characterized positionally over the enumerated input. -/
theorem rewriteLoop_ts_items (ctx : RewriteCtx) (pb tid : String) :
    ∀ (segs : List (Option MediaSegment)) (i : Nat) (seen : List String),
      ((rewriteLoop ctx pb tid i seen segs).items.filter
          (fun it => it.type == "ts"))
        = (segs.enumFrom i).filterMap (fun p =>
            match p.2 with
            | some seg =>
                if seg.uri = "" then none
                else some ⟨ctx.resolve seg.uri,
                  segFilename ctx p.1 (ctx.resolve seg.uri), "ts"⟩
            | none => none)
  | [], _, _ => by simp [rewriteLoop, List.enumFrom]
  | none :: rest, i, seen => by
      simp [rewriteLoop, List.enumFrom, List.filterMap_cons,
        rewriteLoop_ts_items ctx pb tid rest (i + 1) seen]
  | some seg :: rest, i, seen => by
      rcases hk : seg.key with _ | k
      · by_cases hu : seg.uri = "" <;>
          simp [rewriteLoop, hk, hu, List.enumFrom, List.filterMap_cons,
            List.filter_append,
            rewriteLoop_ts_items ctx pb tid rest (i + 1) seen]
      · by_cases hku : k.uri = ""
        · by_cases hu : seg.uri = "" <;>
            simp [rewriteLoop, hk, hku, hu, List.enumFrom, List.filterMap_cons,
              List.filter_append,
              rewriteLoop_ts_items ctx pb tid rest (i + 1) seen]
        · by_cases hmem : ctx.md5hex (ctx.resolve k.uri) ++ ".key" ∈ seen
          · by_cases hu : seg.uri = "" <;>
              simp [rewriteLoop, hk, hku, hu, hmem, List.enumFrom,
                List.filterMap_cons, List.filter_append,
                rewriteLoop_ts_items ctx pb tid rest (i + 1) seen]
          · by_cases hu : seg.uri = "" <;>
              simp [rewriteLoop, hk, hku, hu, hmem, List.enumFrom,
                List.filterMap_cons, List.filter_append,
                rewriteLoop_ts_items ctx pb tid rest (i + 1)
                  ((ctx.md5hex (ctx.resolve k.uri) ++ ".key") :: seen)]

/-- Every number produced from an enumeration starting at `n` exceeds
`n`. -/
theorem tsNums_lt :
    ∀ (segs : List (Option MediaSegment)) (n x : Nat),
      x ∈ (segs.enumFrom n).filterMap
        (fun p => if hasURI p.2 then some (p.1 + 1) else none) → n < x
  | [], _, _ => by simp [List.enumFrom]
  | s :: rest, n, x => by
      by_cases hs : hasURI s
      · simp only [List.enumFrom, List.filterMap_cons, hs, if_pos, List.mem_cons]
        rintro (rfl | hx)
        · omega
        · have := tsNums_lt rest (n + 1) x hx
          omega
      · simp only [List.enumFrom, List.filterMap_cons, hs, if_neg, Bool.false_eq_true,
          not_false_iff]
        intro hx
        have := tsNums_lt rest (n + 1) x hx
        omega

/-- The one-based numbers of the emitted segment items strictly
increase. -/
theorem tsNums_pairwise :
    ∀ (segs : List (Option MediaSegment)) (n : Nat),
      List.Pairwise (· < ·) ((segs.enumFrom n).filterMap
        (fun p => if hasURI p.2 then some (p.1 + 1) else none))
  | [], _ => by simp [List.enumFrom]
  | s :: rest, n => by
      by_cases hs : hasURI s
      · simp only [List.enumFrom, List.filterMap_cons, hs, if_pos]
        refine List.Pairwise.cons (fun x hx => ?_) (tsNums_pairwise rest (n + 1))
        have := tsNums_lt rest (n + 1) x hx
        omega
      · simp only [List.enumFrom, List.filterMap_cons, hs, if_neg, Bool.false_eq_true,
          not_false_iff]
        exact tsNums_pairwise rest (n + 1)

/-- The key items the rewrite loop emits carry, in order, the first
occurrences of the key filenames not already in the seen set. -/
theorem rewriteLoop_key_items (ctx : RewriteCtx) (pb tid : String) :
    ∀ (segs : List (Option MediaSegment)) (i : Nat) (seen : List String),
      (((rewriteLoop ctx pb tid i seen segs).items.filter
          (fun it => it.type == "key")).map (fun it => it.filename))
        = firstOccur seen (keyFilenames ctx segs)
  | [], _, _ => by
      simp only [rewriteLoop, List.filter_nil, List.map_nil, keyFilenames,
        List.filterMap_nil, firstOccur]
  | none :: rest, i, seen => by
      simp [rewriteLoop, keyFilenames, List.filterMap_cons,
        rewriteLoop_key_items ctx pb tid rest (i + 1) seen]
  | some seg :: rest, i, seen => by
      rcases hk : seg.key with _ | k
      · by_cases hu : seg.uri = "" <;>
          simp [rewriteLoop, keyFilenames, keyFilenameOf, hk, hu,
            List.filterMap_cons, List.filter_append,
            rewriteLoop_key_items ctx pb tid rest (i + 1) seen]
      · by_cases hku : k.uri = ""
        · by_cases hu : seg.uri = "" <;>
            simp [rewriteLoop, keyFilenames, keyFilenameOf, hk, hku, hu,
              List.filterMap_cons, List.filter_append,
              rewriteLoop_key_items ctx pb tid rest (i + 1) seen]
        · by_cases hmem : ctx.md5hex (ctx.resolve k.uri) ++ ".key" ∈ seen
          · by_cases hu : seg.uri = "" <;>
              simp [rewriteLoop, keyFilenames, keyFilenameOf, hk, hku, hu, hmem,
                List.filterMap_cons, List.filter_append, firstOccur,
                rewriteLoop_key_items ctx pb tid rest (i + 1) seen]
          · by_cases hu : seg.uri = "" <;>
              simp [rewriteLoop, keyFilenames, keyFilenameOf, hk, hku, hu, hmem,
                List.filterMap_cons, List.filter_append, firstOccur,
                rewriteLoop_key_items ctx pb tid rest (i + 1)
                  ((ctx.md5hex (ctx.resolve k.uri) ++ ".key") :: seen)]

/-- Membership in a first-occurrence list: present in the input and not
already seen. -/
theorem mem_firstOccur :
    ∀ (l seen : List String) (f : String),
      f ∈ firstOccur seen l ↔ f ∈ l ∧ f ∉ seen
  | [], _, _ => by simp [firstOccur]
  | g :: gs, seen, f => by
      by_cases hg : g ∈ seen
      · rw [firstOccur, if_pos hg, mem_firstOccur gs seen f, List.mem_cons]
        constructor
        · rintro ⟨hf, hn⟩
          exact ⟨Or.inr hf, hn⟩
        · rintro ⟨rfl | hf, hn⟩
          · exact absurd hg hn
          · exact ⟨hf, hn⟩
      · rw [firstOccur, if_neg hg, List.mem_cons,
          mem_firstOccur gs (g :: seen) f, List.mem_cons, List.mem_cons]
        constructor
        · rintro (rfl | ⟨hf, hn⟩)
          · exact ⟨Or.inl rfl, hg⟩
          · exact ⟨Or.inr hf, fun hs => hn (Or.inr hs)⟩
        · rintro ⟨rfl | hf, hn⟩
          · exact Or.inl rfl
          · by_cases hfg : f = g
            · exact Or.inl hfg
            · refine Or.inr ⟨hf, fun hs => ?_⟩
              rcases hs with h1 | h2
              · exact hfg h1
              · exact hn h2

/-- A first-occurrence list has no duplicates. -/
theorem nodup_firstOccur :
    ∀ (l seen : List String), (firstOccur seen l).Nodup
  | [], _ => by simp [firstOccur]
  | g :: gs, seen => by
      by_cases hg : g ∈ seen
      · rw [firstOccur, if_pos hg]
        exact nodup_firstOccur gs seen
      · rw [firstOccur, if_neg hg]
        refine List.Nodup.cons (fun hmem => ?_) (nodup_firstOccur gs (g :: seen))
        have := (mem_firstOccur gs (g :: seen) g).mp hmem
        exact this.2 (List.mem_cons_self g seen)

/-- Unfolding of the decoder at a percent triple. -/
theorem queryUnescape_percent (a b : Nat) (rest : List Nat) (x y : Nat)
    (ha : hexVal a = some x) (hb : hexVal b = some y) :
    queryUnescape (37 :: a :: b :: rest)
      = (queryUnescape rest).map (fun t => (16 * x + y) :: t) := by
  rw [queryUnescape.eq_def]
  simp [ha, hb]

/-- Unfolding of the decoder at a plus byte. -/
theorem queryUnescape_plus (rest : List Nat) :
    queryUnescape (43 :: rest) = (queryUnescape rest).map (fun t => 32 :: t) := by
  rw [queryUnescape.eq_def]
  simp

/-- Unfolding of the decoder at an ordinary byte. -/
theorem queryUnescape_other (c : Nat) (rest : List Nat)
    (h37 : c ≠ 37) (h43 : c ≠ 43) :
    queryUnescape (c :: rest) = (queryUnescape rest).map (fun t => c :: t) := by
  rw [queryUnescape.eq_def]
  simp [h37, h43]

/-- A hex digit byte decodes back to its nibble. -/
theorem hexVal_hexDigit : ∀ n : Nat, n < 16 → hexVal (hexDigit n) = some n := by
  decide

/-- An unreserved byte is neither the percent nor the plus byte. -/
theorem isUnreservedByte_ne (b : Nat) (h : isUnreservedByte b = true) :
    b ≠ 37 ∧ b ≠ 43 := by
  simp [isUnreservedByte] at h
  constructor <;> omega

/-- Decoding inverts encoding on byte strings. -/
theorem queryUnescape_queryEscape :
    ∀ (s : List Nat), (∀ b ∈ s, b < 256) →
      queryUnescape (queryEscape s) = some s
  | [], _ => rfl
  | b :: t, h => by
      have hb : b < 256 := h b (List.mem_cons_self b t)
      have ht : ∀ x ∈ t, x < 256 := fun x hx => h x (List.mem_cons_of_mem b hx)
      have ih := queryUnescape_queryEscape t ht
      by_cases hu : isUnreservedByte b
      · rcases isUnreservedByte_ne b hu with ⟨h37, h43⟩
        simp [queryEscape, hu, queryUnescape_other b _ h37 h43, ih]
      · by_cases hsp : b = 32
        · subst hsp
          simp [queryEscape, hu, queryUnescape_plus, ih]
        · have hdiv : b / 16 < 16 := by omega
          have hmod : b % 16 < 16 := Nat.mod_lt _ (by omega)
          have hrec : 16 * (b / 16) + b % 16 = b := Nat.div_add_mod b 16
          simp [queryEscape, hu, hsp,
            queryUnescape_percent _ _ _ _ _ (hexVal_hexDigit _ hdiv)
              (hexVal_hexDigit _ hmod), ih, hrec]

/-- Splitting at the first slash recovers a slash-free prefix. -/
theorem breakSlash_append :
    ∀ (t r : List Nat), 47 ∉ t → breakSlash (t ++ 47 :: r) = some (t, r)
  | [], r, _ => by simp [breakSlash]
  | c :: cs, r, h => by
      have hc : c ≠ 47 := fun hcc => h (hcc ▸ List.mem_cons_self c cs)
      have hcs : 47 ∉ cs := fun hm => h (List.mem_cons_of_mem c hm)
      simp [breakSlash, hc, breakSlash_append cs r hcs]

/-! ## Claims -/

/-- C8: for every variant playlist, the totalSegments value returned by
RewriteVariant equals the number of segment entries with a non-empty URI;
nil placeholders and empty-URI segments are not counted. -/
theorem C8_total_counts_nonempty_uris (ctx : RewriteCtx) (pb tid : String)
    (segs : List (Option MediaSegment)) :
    (RewriteVariant ctx pb tid segs).total = segs.countP hasURI :=
  rewriteLoop_total ctx pb tid segs 0 []

/-- C3 counterexample: an item whose target file exists together with its
.aria2 sidecar marker is skipped by triggerDownloads, not submitted: with
a filesystem holding both the file and the sidecar and an engine that
would succeed, the submission list is empty, refuting the claim that such
an item is still submitted. -/
theorem C3_counterexample :
    (triggerDownloads (fun _ _ _ => some "g1")
        (fun t f => (t == "T") && ((f == "00001.ts") || (f == "00001.ts.aria2")))
        "T" [⟨"http://h/s1.ts", "00001.ts", "ts"⟩] ⟨[], []⟩).2 = [] ∧
      ((fun t f => (t == "T") && ((f == "00001.ts") || (f == "00001.ts.aria2")) :
        FS) "T" "00001.ts.aria2" = true) := by
  constructor
  · rfl
  · rfl

/-- C3 amended: triggerDownloads skips an item exactly when the target
file already exists, without consulting the sidecar marker; otherwise it
submits, and the successful submissions are precisely the non-existing
items the engine accepts, in order. -/
theorem C3_amended_skip_iff_file_exists (eng : Engine) (fs : FS) (tid : String)
    (items : List DownloadItem) (db : DBState) :
    (triggerDownloads eng fs tid items db).2 = items.filterMap (fun it =>
      if fs tid it.filename then none
      else (eng it.url (GetTaskDir tid) it.filename).map
        (fun gid => ⟨it.url, it.filename, gid⟩)) := by
  induction items generalizing db with
  | nil => rfl
  | cons item rest ih =>
      by_cases hf : fs tid item.filename
      · simp [triggerDownloads, hf, ih]
      · rcases he : eng item.url (GetTaskDir tid) item.filename with _ | gid <;>
          simp [triggerDownloads, hf, he, ih]

/-- C6: DeleteTask on a task whose status is downloading returns an error
and changes nothing: no GID is cancelled or forgotten, no cache file or
directory is removed, and no task or item row is deleted. -/
theorem C6_delete_refuses_downloading (rf : Bool) (st : SysState) (id : String)
    (meta : TaskMetadata) (h1 : findTask st.db id = some meta)
    (h2 : meta.status = "downloading") :
    DeleteTask rf st id = (st, some "cannot delete running task, please stop it first") := by
  simp [DeleteTask, h1, h2]

/-- Witness for C6 at a concrete downloading task. -/
theorem C6_witness :
    DeleteTask false
        ⟨⟨[⟨"T", "u", 3, 0, "downloading", "c"⟩], []⟩, fun _ _ => false, ["T"], [], []⟩ "T"
      = (⟨⟨[⟨"T", "u", 3, 0, "downloading", "c"⟩], []⟩, fun _ _ => false, ["T"], [], []⟩,
          some "cannot delete running task, please stop it first") :=
  C6_delete_refuses_downloading false _ "T" ⟨"T", "u", 3, 0, "downloading", "c"⟩
    (by decide) rfl

/-- C10: a task with stored total 0 and status other than completed is
never flipped to completed by the progress listing: its report keeps the
stored status and carries the raw unclamped downloaded count, and no
asynchronous status update is issued for it. -/
theorem C10_zero_total_never_completes (fs : FS) (db : DBState)
    (meta : TaskMetadata) (h1 : meta.totalSegments = 0)
    (h2 : meta.status ≠ "completed") :
    reportOf fs db meta =
      ⟨meta.id, meta.originalURL, 0, countDownloadedSegments fs db meta.id,
        meta.createdTime, meta.status⟩ ∧
    statusUpdateOf fs db meta = none := by
  constructor <;> simp [reportOf, statusUpdateOf, h1, h2]

/-- Witness for C10: a key-only task (total 0, one completed key file)
reports downloaded 1, unclamped, and stays downloading. -/
theorem C10_witness :
    reportOf (fun t f => (t == "T") && (f == "abc.key"))
        ⟨[⟨"T", "u", 0, 7, "downloading", "c"⟩], [⟨"T", "abc.key", "g1", "ku"⟩]⟩
        ⟨"T", "u", 0, 7, "downloading", "c"⟩
      = ⟨"T", "u", 0, 1, 7, "downloading"⟩ ∧
    statusUpdateOf (fun t f => (t == "T") && (f == "abc.key"))
        ⟨[⟨"T", "u", 0, 7, "downloading", "c"⟩], [⟨"T", "abc.key", "g1", "ku"⟩]⟩
        ⟨"T", "u", 0, 7, "downloading", "c"⟩ = none := by
  have h := C10_zero_total_never_completes
    (fun t f => (t == "T") && (f == "abc.key"))
    ⟨[⟨"T", "u", 0, 7, "downloading", "c"⟩], [⟨"T", "abc.key", "g1", "ku"⟩]⟩
    ⟨"T", "u", 0, 7, "downloading", "c"⟩ rfl (by decide)
  refine ⟨?_, h.2⟩
  rw [h.1]
  rfl

/-- C2 counterexample: when CreateTask fails because the row exists, the
background creation path of handleVariantPlaylist leaves the database
unchanged, keeping the old proxied content rather than falling back to
updating it, and dispatches none of its pending fetch items even though
the engine would accept them: the duplicate-create abandons the rest of
the background work. -/
theorem C2_counterexample :
    variantBackground (fun _ _ _ => some "g1") (fun _ _ => false)
        ⟨"T", "u", 1, 1, "downloading", "new"⟩
        [⟨"http://h/s1.ts", "00001.ts", "ts"⟩]
        ⟨[⟨"T", "u", 1, 0, "downloading", "old"⟩], []⟩
      = (⟨[⟨"T", "u", 1, 0, "downloading", "old"⟩], []⟩, []) ∧
    ("old" : String) ≠ "new" := by
  constructor
  · rfl
  · decide

/-- C2 amended: when a row with the metadata id already exists, the
losing background creation path returns after the failed CreateTask,
leaving the database fully unchanged and submitting nothing; it does not
update the proxied-content field, and the already-written HTTP response
is unaffected because the goroutine only runs after it. -/
theorem C2_amended_duplicate_create_aborts (eng : Engine) (fs : FS)
    (meta : TaskMetadata) (items : List DownloadItem) (db : DBState)
    (h : (findTask db meta.id).isSome) :
    variantBackground eng fs meta items db = (db, []) := by
  simp [variantBackground, CreateTask, h]

/-- Witness for the amended C2 at a concrete duplicate creation. -/
theorem C2_witness :
    variantBackground (fun _ _ _ => some "g2") (fun _ _ => true)
        ⟨"S", "v", 2, 3, "downloading", "p2"⟩ []
        ⟨[⟨"S", "v", 2, 2, "downloading", "p1"⟩], []⟩
      = (⟨[⟨"S", "v", 2, 2, "downloading", "p1"⟩], []⟩, []) :=
  C2_amended_duplicate_create_aborts _ _ _ _ _ (by decide)

/-- C1: when a task with the fingerprint of the request already exists
with status stopped, handleVariantPlaylist does not create a new task
row and does not dispatch fetch items: the attempted insert fails on the
existing row and the background path returns before triggering anything,
so the database is unchanged and the submission list is empty. -/
theorem C1_stopped_not_recreated (eng : Engine) (fs : FS) (dirs : List String)
    (db : DBState) (taskID originURL updated : String)
    (items : List DownloadItem) (total now : Nat) (t : TaskMetadata)
    (h1 : findTask db taskID = some t) (h2 : t.status = "stopped") :
    (handleVariantPlaylist eng fs dirs db taskID originURL updated items total now).db = db ∧
    (handleVariantPlaylist eng fs dirs db taskID originURL updated items total now).submitted = [] := by
  have hb : variantBackground eng fs ⟨taskID, originURL, total, now, "downloading", updated⟩
      items db = (db, []) := by
    simp [variantBackground, CreateTask, h1]
  constructor <;>
    simp [handleVariantPlaylist, CheckTaskExists, h1, h2, hb]

/-- Witness for C1 at a concrete stopped task. -/
theorem C1_witness :
    (handleVariantPlaylist (fun _ _ _ => some "g3") (fun _ _ => false) []
        ⟨[⟨"T", "u", 1, 0, "stopped", "old"⟩], []⟩
        "T" "u" "body" [⟨"x", "00001.ts", "ts"⟩] 1 5).db
      = ⟨[⟨"T", "u", 1, 0, "stopped", "old"⟩], []⟩ ∧
    (handleVariantPlaylist (fun _ _ _ => some "g3") (fun _ _ => false) []
        ⟨[⟨"T", "u", 1, 0, "stopped", "old"⟩], []⟩
        "T" "u" "body" [⟨"x", "00001.ts", "ts"⟩] 1 5).submitted = [] :=
  C1_stopped_not_recreated _ _ _ _ _ _ _ _ _ _ ⟨"T", "u", 1, 0, "stopped", "old"⟩
    (by decide) rfl

/-- C5: the segment and key handler serves the local file exactly when
it exists and its .aria2 sidecar does not; in every other case of a
well-formed request it answers with a live pass-through of the original
URL, and its result carries no fetch dispatch. -/
theorem C5_serve_iff_complete (fs : FSB) (path tid fn enc orig : List Nat)
    (h1 : splitTask path = some (tid, fn, enc))
    (h2 : queryUnescape enc = some orig) :
    (handleProxyFile fs path = .serveLocal tid fn ↔
      fs tid fn = true ∧ fs tid (fn ++ ariaBytes) = false) ∧
    ((fs tid fn = false ∨ fs tid (fn ++ ariaBytes) = true) →
      handleProxyFile fs path = .passThrough orig) := by
  by_cases ha : fs tid fn <;> by_cases hb : fs tid (fn ++ ariaBytes) <;>
    simp [handleProxyFile, h1, h2, ha, hb]

/-- Witness for C5: with an empty cache every well-formed request passes
through to the decoded original URL. -/
theorem C5_witness :
    handleProxyFile (fun _ _ => false) (asciiBytes "a/b/c")
      = .passThrough (asciiBytes "c") := by
  have h := C5_serve_iff_complete (fun _ _ => false) (asciiBytes "a/b/c")
    (asciiBytes "a") (asciiBytes "b") (asciiBytes "c") (asciiBytes "c")
    (by decide) (by decide)
  exact h.2 (Or.inl rfl)

/-- C4 counterexample: with a URI-less placeholder entry first in the
playlist, the first produced segment item is named 00002.ts, not
00001.ts: the sequence number is one plus the range index over the whole
segment array, placeholders included, refuting the claim that the first
segment item is numbered 00001 regardless of earlier placeholders. -/
theorem C4_counterexample :
    ((RewriteVariant
        ⟨fun s => "http://h/" ++ s, fun _ => some ".ts", fun _ => "k0", fun s => s⟩
        "http://p/proxy" "T"
        [some ⟨"", none⟩, some ⟨"s1.ts", none⟩]).items.map
      (fun it => it.filename)) = ["00002.ts"] ∧
    (["00002.ts"] : List String) ≠ ["00001.ts"] := by
  constructor
  · rfl
  · decide

/-- C4 amended: every segment item of RewriteVariant is named by the
5-digit zero-padded successor of its range index in the full segment
array (nil and URI-less placeholders included in the indexing) plus the
resolved path extension defaulting to .ts, and the sequence numbers are
strictly increasing; hence they start at 00001 exactly when the first
array entry is a segment with a non-empty URI, not regardless of earlier
placeholders. -/
theorem C4_amended_segment_numbering (ctx : RewriteCtx) (pb tid : String)
    (segs : List (Option MediaSegment)) :
    ((RewriteVariant ctx pb tid segs).items.filter
        (fun it => it.type == "ts")) = tsSpec ctx segs ∧
    List.Pairwise (· < ·) (tsNums segs) :=
  ⟨rewriteLoop_ts_items ctx pb tid segs 0 [], tsNums_pairwise segs 0⟩

/-- C7: the item list of RewriteVariant contains exactly one key fetch
item per distinct key filename (the content hash of the resolved key URL
suffixed .key): the key item filenames are duplicate-free and cover
precisely the key filenames occurring in the playlist, each appended at
its first occurrence. -/
theorem C7_key_items_dedup (ctx : RewriteCtx) (pb tid : String)
    (segs : List (Option MediaSegment)) :
    ((((RewriteVariant ctx pb tid segs).items.filter
        (fun it => it.type == "key")).map (fun it => it.filename)).Nodup) ∧
    ∀ f, f ∈ (((RewriteVariant ctx pb tid segs).items.filter
        (fun it => it.type == "key")).map (fun it => it.filename))
      ↔ f ∈ keyFilenames ctx segs := by
  have h := rewriteLoop_key_items ctx pb tid segs 0 []
  rw [RewriteVariant, h]
  refine ⟨nodup_firstOccur _ _, fun f => ?_⟩
  rw [mem_firstOccur]
  simp

/-- C9: the encoded URL embedded as the final path component of a
rewritten segment URI, extracted the way the segment handler does
(trimming the proxy prefix and splitting on the first two slashes), then
percent-decoded, is exactly the resolved absolute source URL: the
encode/decode round trip is the identity. -/
theorem C9_roundtrip (pb tid fn res : List Nat)
    (h1 : 47 ∉ tid) (h2 : 47 ∉ fn) (h3 : ∀ b ∈ res, b < 256) :
    splitTask ((segRewrittenURI pb tid fn res).drop (pb.length + 5))
        = some (tid, fn, queryEscape res) ∧
    queryUnescape (queryEscape res) = some res := by
  refine ⟨?_, queryUnescape_queryEscape res h3⟩
  have hlen : (pb ++ segMark).length = pb.length + 5 := by
    simp [segMark]
  have hshape : segRewrittenURI pb tid fn res
      = (pb ++ segMark) ++ (tid ++ 47 :: (fn ++ 47 :: queryEscape res)) := by
    simp [segRewrittenURI, List.append_assoc]
  rw [hshape, ← hlen, List.drop_left, splitTask, breakSlash_append tid _ h1]
  simp [breakSlash_append fn _ h2]

/-- Witness for C9 at a concrete proxy base, task, filename and resolved
URL containing a space. -/
theorem C9_witness :
    splitTask ((segRewrittenURI (asciiBytes "http://p/proxy") (asciiBytes "T")
        (asciiBytes "00001.ts") (asciiBytes "http://h/s 1.ts")).drop
        ((asciiBytes "http://p/proxy").length + 5))
      = some (asciiBytes "T", asciiBytes "00001.ts",
          queryEscape (asciiBytes "http://h/s 1.ts")) ∧
    queryUnescape (queryEscape (asciiBytes "http://h/s 1.ts"))
      = some (asciiBytes "http://h/s 1.ts") :=
  C9_roundtrip _ _ _ _ (by decide) (by decide) (by decide)

end HLS
